import Mathlib

/- Verification of the event-relay core of this repository: the synchronized
state store (src/adapter.ts, class SyncStore), the dispatch router
(src/router.ts, class HeadlessRouter) and the connection-manager event
batching (src/client.ts, class HeadlessClient), shallowly embedded in Lean.
JS numbers are modelled as exact rationals, JS records as association lists,
`undefined` as `Option.none`, and asynchronous emission as explicit lists of
emitted notifications returned next to the new state. -/

namespace Relay

/- Association list modelling a TS `Record<string, α>` / `Map<string, α>`:
`get` is indexing, `set` is assignment (replace in place, JS Maps keep the
original insertion position on overwrite), `erase` is the `delete` operator. -/
abbrev Rec (α : Type) : Type := List (String × α)

def Rec.get {α : Type} (r : Rec α) (k : String) : Option α :=
  (r.find? (fun p => p.1 == k)).map (fun p => p.2)

def Rec.set {α : Type} (r : Rec α) (k : String) (v : α) : Rec α :=
  match r with
  | [] => [(k, v)]
  | (k', v') :: rest => if k' = k then (k, v) :: rest else (k', v') :: Rec.set rest k v

def Rec.erase {α : Type} (r : Rec α) (k : String) : Rec α :=
  r.filter (fun p => p.1 ≠ k)

/- ---------------------------------------------------------------------
Data model (src/types.ts and the SDK types the store manipulates).
--------------------------------------------------------------------- -/

inductive Role : Type
  | user
  | assistant
deriving DecidableEq

/- `tokens.cache` of an assistant message: `{ read?: number; write?: number }`. -/
structure CachePayload : Type where
  read : Option ℚ
  write : Option ℚ
deriving DecidableEq

/- The cumulative token payload carried by an assistant message:
`{ input?: number; output?: number; reasoning?: number; cache?: {...} }`. -/
structure TokensPayload : Type where
  input : Option ℚ
  output : Option ℚ
  reasoning : Option ℚ
  cache : Option CachePayload
deriving DecidableEq

/- The per-session running token aggregate (adapter.ts, type TokenSummary). -/
structure TokenSummary : Type where
  input : ℚ
  output : ℚ
  reasoning : ℚ
  cacheRead : ℚ
  cacheWrite : ℚ
deriving DecidableEq

def TokenSummary.zero : TokenSummary :=
  { input := 0, output := 0, reasoning := 0, cacheRead := 0, cacheWrite := 0 }

/- A message as the store observes it: identifier, owning session, role,
`time.completed` (undefined while streaming), cumulative cost (undefined when
the field is not a number), cumulative token payload, terminal finish reason
(present on the wire, ignored by the store), and the summary fields the
router's text resolution reads. -/
structure Message : Type where
  id : String
  sessionID : String
  role : Role
  completed : Option ℚ
  cost : Option ℚ
  tokens : Option TokensPayload
  finish : Option String
  summaryBody : Option String
  summaryTitle : Option String
deriving DecidableEq

/- A session: identifier plus the truthiness of `time.compacting`. -/
structure Session : Type where
  id : String
  compacting : Bool
deriving DecidableEq

/- A message part: identifier, owning session and message, discriminant, and
its string-valued fields (`text`, ...) as a record — `message.part.delta`
events append to such a field or initialize it. -/
structure Part : Type where
  id : String
  sessionID : String
  messageID : String
  type : String
  attrs : Rec String
deriving DecidableEq

structure PermissionRequest : Type where
  id : String
  sessionID : String
  payload : String
deriving DecidableEq

structure QuestionRequest : Type where
  id : String
  sessionID : String
  payload : String
deriving DecidableEq

abbrev Todo : Type := String

inductive DerivedSessionStatus : Type
  | idle
  | working
  | compacting
deriving DecidableEq

/- Store bootstrap status; `inProgress` is the source's "partial". -/
inductive SyncStoreStatus : Type
  | loading
  | inProgress
  | complete
deriving DecidableEq

/- The notifications the store emits (adapter.ts, type StoreEvents). -/
inductive StoreEvent : Type
  | permission (sessionID : String) (request : PermissionRequest)
  | question (sessionID : String) (request : QuestionRequest)
  | todo (sessionID : String) (todos : List Todo)
  | sessionStatus (sessionID : String) (status : DerivedSessionStatus)
  | assistantMessage (sessionID : String) (message : Message) (parts : List Part)
  | assistantMessageComplete (sessionID : String) (message : Message) (parts : List Part)
  | sessionError (sessionID : String) (message : String)
  | toast (variant : String) (message : String) (duration : Option ℚ)
  | sessionCost (sessionID : String) (cost : ℚ) (tokens : TokenSummary)
  | statusChanged (status : SyncStoreStatus)
deriving DecidableEq

/- The inbound remote events the store's `processEvent` switches on
(adapter.ts lines 302-531); `unhandled` stands for every other event kind,
which the default case ignores. -/
inductive Event : Type
  | serverInstanceDisposed
  | permissionReplied (sessionID : String) (requestID : String)
  | permissionAsked (request : PermissionRequest)
  | questionReplied (sessionID : String) (requestID : String)
  | questionRejected (sessionID : String) (requestID : String)
  | questionAsked (request : QuestionRequest)
  | todoUpdated (sessionID : String) (todos : List Todo)
  | sessionDiff (sessionID : String) (diff : List String)
  | sessionCreated (info : Session)
  | sessionUpdated (info : Session)
  | sessionDeleted (info : Session)
  | sessionStatusEvt (sessionID : String) (status : String)
  | messageUpdated (info : Message)
  | messageRemoved (sessionID : String) (messageID : String)
  | partUpdated (part : Part)
  | partDelta (sessionID : String) (messageID : String) (partID : String)
      (field : String) (delta : String)
  | partRemoved (sessionID : String) (messageID : String) (partID : String)
  | lspUpdated
  | vcsBranchUpdated (branch : String)
  | tuiToastShow (variant : String) (message : String) (duration : Option ℚ)
  | sessionErrorEvt (sessionID : Option String) (message : Option String)
  | unhandled
deriving DecidableEq

/- Modelled from the spec: the repository's sorted-collection utility
`Binary.search` (src/binary.ts, imported by adapter.ts and absent from src/):
an ordered-by-key find primitive over a collection kept sorted by identifier,
returning whether the key is present together with the matching index, or the
index at which an insert keeps the collection sorted. -/
structure SearchResult : Type where
  found : Bool
  index : Nat
deriving DecidableEq

/- Lexicographic order on identifier strings (JS compares strings code unit
by code unit); written out over the character lists so that it evaluates
inside the kernel. -/
def strLtChars : List Char → List Char → Bool
  | [], [] => false
  | [], _ :: _ => true
  | _ :: _, [] => false
  | a :: as, b :: bs =>
    if a.val < b.val then true else if b.val < a.val then false else strLtChars as bs

def strLt (s : String) (t : String) : Bool := strLtChars s.data t.data

/- Modelled from the spec: see `SearchResult`. On a list sorted by `f` this
returns exactly what the missing binary search returns: the index of the
element whose key equals `key` when present, else the insertion point. -/
def binarySearch {α : Type} (l : List α) (key : String) (f : α → String) : SearchResult :=
  match l with
  | [] => { found := false, index := 0 }
  | a :: rest =>
    if strLt (f a) key then
      let r := binarySearch rest key f
      { found := r.found, index := r.index + 1 }
    else if f a = key then { found := true, index := 0 }
    else { found := false, index := 0 }

/- ---------------------------------------------------------------------
The store state (adapter.ts, type SyncState plus the private `derivedStatus`
map and `fullSyncedSessions` set of class SyncStore). Fields the relayed
claims never touch (provider/agent/config/lsp/mcp/formatter/path tables,
which are only written by the asynchronous bootstrap fetches) are omitted
from the embedding. -/
structure SyncState : Type where
  status : SyncStoreStatus
  permission : Rec (List PermissionRequest)
  question : Rec (List QuestionRequest)
  todo : Rec (List Todo)
  session : List Session
  session_status : Rec String
  session_diff : Rec (List String)
  message : Rec (List Message)
  part : Rec (List Part)
  vcs : Option String
  session_cost : Rec ℚ
  session_tokens : Rec TokenSummary
  derivedStatus : Rec DerivedSessionStatus
  fullSynced : List String
deriving DecidableEq

/- The constructor's initial state (adapter.ts lines 114-146). -/
def SyncState.init : SyncState where
  status := .loading
  permission := []
  question := []
  todo := []
  session := []
  session_status := []
  session_diff := []
  message := []
  part := []
  vcs := none
  session_cost := []
  session_tokens := []
  derivedStatus := []
  fullSynced := []

/- Query accessors (adapter.ts lines 196-222). -/
def SyncState.messages (st : SyncState) (sessionID : String) : List Message :=
  (st.message.get sessionID).getD []

def SyncState.parts (st : SyncState) (messageID : String) : List Part :=
  (st.part.get messageID).getD []

def SyncState.permissions (st : SyncState) (sessionID : String) : List PermissionRequest :=
  (st.permission.get sessionID).getD []

def SyncState.questions (st : SyncState) (sessionID : String) : List QuestionRequest :=
  (st.question.get sessionID).getD []

def SyncState.todos (st : SyncState) (sessionID : String) : List Todo :=
  (st.todo.get sessionID).getD []

def SyncState.sessionCost (st : SyncState) (sessionID : String) : ℚ :=
  (st.session_cost.get sessionID).getD 0

def SyncState.sessionTokens (st : SyncState) (sessionID : String) : TokenSummary :=
  (st.session_tokens.get sessionID).getD TokenSummary.zero

/- getSession (adapter.ts lines 539-543). -/
def getSession (st : SyncState) (sessionID : String) : Option Session :=
  let m := binarySearch st.session sessionID (fun s => s.id)
  if m.found then st.session[m.index]? else none

/- getSessionStatus (adapter.ts lines 545-554). -/
def getSessionStatus (st : SyncState) (sessionID : String) : DerivedSessionStatus :=
  match getSession st sessionID with
  | none => .idle
  | some session =>
    if session.compacting then .compacting
    else
      match ((st.message.get sessionID).getD []).getLast? with
      | none => .idle
      | some last =>
        if last.role = .user then .working
        else if last.completed.isSome then .idle else .working

/- getMessage (adapter.ts lines 619-625). -/
def getMessage (st : SyncState) (sessionID : String) (messageID : String) : Option Message :=
  match st.message.get sessionID with
  | none => none
  | some messages =>
    let m := binarySearch messages messageID (fun x => x.id)
    if m.found then messages[m.index]? else none

/- updateDerivedStatus (adapter.ts lines 591-597). -/
def updateDerivedStatus (sessionID : String) (st : SyncState) : SyncState × List StoreEvent :=
  let next := getSessionStatus st sessionID
  let previous := st.derivedStatus.get sessionID
  if previous = some next then (st, [])
  else ({ st with derivedStatus := st.derivedStatus.set sessionID next },
        [.sessionStatus sessionID next])

/- emitAssistantMessage (adapter.ts lines 599-607). -/
def emitAssistantMessage (current : Message) (previous : Option Message)
    (st : SyncState) : List StoreEvent :=
  if current.role ≠ .assistant then []
  else
    let parts := (st.part.get current.id).getD []
    let wasComplete : Bool :=
      match previous with
      | some p => decide (p.role = .assistant) && p.completed.isSome
      | none => false
    if current.completed.isSome && !wasComplete then
      [.assistantMessage current.sessionID current parts,
       .assistantMessageComplete current.sessionID current parts]
    else [.assistantMessage current.sessionID current parts]

/- emitAssistantMessageFromPart (adapter.ts lines 609-617). -/
def emitAssistantMessageFromPart (st : SyncState) (sessionID : String)
    (messageID : String) : List StoreEvent :=
  match getMessage st sessionID messageID with
  | none => []
  | some message =>
    if message.role ≠ .assistant then []
    else
      let parts := (st.part.get messageID).getD []
      if message.completed.isSome then
        [.assistantMessage sessionID message parts,
         .assistantMessageComplete sessionID message parts]
      else [.assistantMessage sessionID message parts]

/- `Math.max(0, (curr ?? 0) - (prev ?? 0))` (adapter.ts line 575). -/
def tokenDelta (curr : Option ℚ) (prev : Option ℚ) : ℚ :=
  max 0 (curr.getD 0 - prev.getD 0)

/- accumulateCost (adapter.ts lines 556-589). -/
def accumulateCost (current : Message) (previous : Option Message)
    (st : SyncState) : SyncState × List StoreEvent :=
  if current.role ≠ .assistant then (st, [])
  else
    let cost := current.cost.getD 0
    let tokens := current.tokens
    if cost = 0 ∧ tokens = none then (st, [])
    else
      let sessionID := current.sessionID
      let prevCost := (previous.bind (fun p => p.cost)).getD 0
      let costDelta := cost - prevCost
      let newCost := (st.session_cost.get sessionID).getD 0 + costDelta
      let st1 :=
        if costDelta > 0 then
          { st with session_cost := st.session_cost.set sessionID newCost }
        else st
      let st2 :=
        match tokens with
        | none => st1
        | some tk =>
          let existing := (st1.session_tokens.get sessionID).getD TokenSummary.zero
          let prevTk := (previous.bind (fun p => p.tokens)).getD
            { input := none, output := none, reasoning := none, cache := none }
          let updated : TokenSummary :=
            { input := existing.input + tokenDelta tk.input prevTk.input
              output := existing.output + tokenDelta tk.output prevTk.output
              reasoning := existing.reasoning + tokenDelta tk.reasoning prevTk.reasoning
              cacheRead := existing.cacheRead +
                tokenDelta (tk.cache.bind (fun c => c.read)) (prevTk.cache.bind (fun c => c.read))
              cacheWrite := existing.cacheWrite +
                tokenDelta (tk.cache.bind (fun c => c.write)) (prevTk.cache.bind (fun c => c.write)) }
          { st1 with session_tokens := st1.session_tokens.set sessionID updated }
      (st2, [.sessionCost sessionID ((st2.session_cost.get sessionID).getD 0)
               ((st2.session_tokens.get sessionID).getD TokenSummary.zero)])

/- The `while (messages.length > 100)` eviction loop of the message.updated
case (adapter.ts lines 417-422): shift the oldest message and delete its
parts until the list is at the cap. -/
def evictOldest : List Message → Rec (List Part) → List Message × Rec (List Part)
  | [], part => ([], part)
  | oldest :: rest, part =>
    if (oldest :: rest).length > 100 then evictOldest rest (part.erase oldest.id)
    else (oldest :: rest, part)

/- The upserted (pre-eviction) message list of the message.updated case
(adapter.ts lines 408-415). -/
def upsertMessages (st : SyncState) (info : Message) : List Message :=
  let messages := (st.message.get info.sessionID).getD []
  let r := binarySearch messages info.id (fun m => m.id)
  if r.found then messages.set r.index info else messages.insertIdx r.index info

/- The previously stored message object read before the upsert replaces it
(adapter.ts line 410). -/
def previousMessage (st : SyncState) (info : Message) : Option Message :=
  let messages := (st.message.get info.sessionID).getD []
  let r := binarySearch messages info.id (fun m => m.id)
  if r.found then messages[r.index]? else none

/- processEvent (adapter.ts lines 302-531), one case per event kind.  The
asynchronous side effects of the source (re-running bootstrap after
server.instance.disposed, the SDK refresh behind lsp.updated) touch only
fields outside this embedding and are dropped. -/
def processEvent (st : SyncState) (e : Event) : SyncState × List StoreEvent :=
  match e with
  | .serverInstanceDisposed =>
    ({ st with status := .loading, fullSynced := [], derivedStatus := [] },
     [.statusChanged .loading])
  | .permissionReplied sessionID requestID =>
    (match st.permission.get sessionID with
     | none => (st, [])
     | some requests =>
       let m := binarySearch requests requestID (fun r => r.id)
       if m.found then
         ({ st with permission := st.permission.set sessionID (requests.eraseIdx m.index) }, [])
       else (st, []))
  | .permissionAsked request =>
    (match st.permission.get request.sessionID with
     | none =>
       ({ st with permission := st.permission.set request.sessionID [request] },
        [.permission request.sessionID request])
     | some requests =>
       let m := binarySearch requests request.id (fun r => r.id)
       let requests' :=
         if m.found then requests.set m.index request else requests.insertIdx m.index request
       ({ st with permission := st.permission.set request.sessionID requests' },
        [.permission request.sessionID request]))
  | .questionReplied sessionID requestID =>
    (match st.question.get sessionID with
     | none => (st, [])
     | some requests =>
       let m := binarySearch requests requestID (fun r => r.id)
       if m.found then
         ({ st with question := st.question.set sessionID (requests.eraseIdx m.index) }, [])
       else (st, []))
  | .questionRejected sessionID requestID =>
    (match st.question.get sessionID with
     | none => (st, [])
     | some requests =>
       let m := binarySearch requests requestID (fun r => r.id)
       if m.found then
         ({ st with question := st.question.set sessionID (requests.eraseIdx m.index) }, [])
       else (st, []))
  | .questionAsked request =>
    (match st.question.get request.sessionID with
     | none =>
       ({ st with question := st.question.set request.sessionID [request] },
        [.question request.sessionID request])
     | some requests =>
       let m := binarySearch requests request.id (fun r => r.id)
       let requests' :=
         if m.found then requests.set m.index request else requests.insertIdx m.index request
       ({ st with question := st.question.set request.sessionID requests' },
        [.question request.sessionID request]))
  | .todoUpdated sessionID todos =>
    ({ st with todo := st.todo.set sessionID todos }, [.todo sessionID todos])
  | .sessionDiff sessionID diff =>
    ({ st with session_diff := st.session_diff.set sessionID diff }, [])
  | .sessionCreated info =>
    let r := binarySearch st.session info.id (fun s => s.id)
    let session' :=
      if r.found then st.session.set r.index info else st.session.insertIdx r.index info
    updateDerivedStatus info.id { st with session := session' }
  | .sessionUpdated info =>
    let r := binarySearch st.session info.id (fun s => s.id)
    let session' :=
      if r.found then st.session.set r.index info else st.session.insertIdx r.index info
    updateDerivedStatus info.id { st with session := session' }
  | .sessionDeleted info =>
    let r := binarySearch st.session info.id (fun s => s.id)
    let session' := if r.found then st.session.eraseIdx r.index else st.session
    ({ st with session := session', derivedStatus := st.derivedStatus.erase info.id }, [])
  | .sessionStatusEvt sessionID status =>
    updateDerivedStatus sessionID
      { st with session_status := st.session_status.set sessionID status }
  | .messageUpdated info =>
    let sessionID := info.sessionID
    let previous := previousMessage st info
    let inserted := upsertMessages st info
    let evicted := evictOldest inserted st.part
    let st1 := { st with message := st.message.set sessionID evicted.1, part := evicted.2 }
    let ev1 := emitAssistantMessage info previous st1
    let acc := accumulateCost info previous st1
    let upd := updateDerivedStatus sessionID acc.1
    (upd.1, ev1 ++ acc.2 ++ upd.2)
  | .messageRemoved sessionID messageID =>
    (match st.message.get sessionID with
     | none => (st, [])
     | some messages =>
       let r := binarySearch messages messageID (fun m => m.id)
       let st1 :=
         if r.found then
           let part' :=
             match messages[r.index]? with
             | some removed => st.part.erase removed.id
             | none => st.part
           { st with message := st.message.set sessionID (messages.eraseIdx r.index),
                     part := part' }
         else st
       updateDerivedStatus sessionID st1)
  | .partUpdated part =>
    let parts := (st.part.get part.messageID).getD []
    let r := binarySearch parts part.id (fun p => p.id)
    let parts' := if r.found then parts.set r.index part else parts.insertIdx r.index part
    let st1 := { st with part := st.part.set part.messageID parts' }
    (st1, emitAssistantMessageFromPart st1 part.sessionID part.messageID)
  | .partDelta sessionID messageID partID field delta =>
    (match st.part.get messageID with
     | none => (st, [])
     | some parts =>
       let r := binarySearch parts partID (fun p => p.id)
       if r.found then
         match parts[r.index]? with
         | none => (st, [])
         | some part =>
           let attrs' :=
             match part.attrs.get field with
             | some current => part.attrs.set field (current ++ delta)
             | none => part.attrs.set field delta
           let part' := { part with attrs := attrs' }
           let st1 := { st with part := st.part.set messageID (parts.set r.index part') }
           (st1, emitAssistantMessageFromPart st1 sessionID messageID)
       else (st, []))
  | .partRemoved sessionID messageID partID =>
    (match st.part.get messageID with
     | none => (st, [])
     | some parts =>
       let r := binarySearch parts partID (fun p => p.id)
       let parts' := if r.found then parts.eraseIdx r.index else parts
       let st1 := { st with part := st.part.set messageID parts' }
       (st1, emitAssistantMessageFromPart st1 sessionID messageID))
  | .lspUpdated => (st, [])
  | .vcsBranchUpdated branch =>
    if branch ≠ "" then ({ st with vcs := some branch }, [])
    else ({ st with vcs := none }, [])
  | .tuiToastShow variant message duration =>
    (st, [.toast variant message duration])
  | .sessionErrorEvt sessionID message =>
    (match sessionID with
     | none => (st, [])
     | some sid =>
       if sid = "" then (st, [])
       else (st, [.sessionError sid (message.getD "Session error")]))
  | .unhandled => (st, [])

/- Apply a sequence of remote events in order, discarding emissions. -/
def applyEvents (st : SyncState) (es : List Event) : SyncState :=
  es.foldl (fun s e => (processEvent s e).1) st

/- ---------------------------------------------------------------------
Full-session sync (adapter.ts lines 627-677, syncSession).  The four SDK
fetches the source awaits are supplied as a value. -/
structure FetchedMessage : Type where
  info : Message
  parts : List Part
deriving DecidableEq

structure FetchedSession : Type where
  session : Session
  messages : List FetchedMessage
  todos : List Todo
  diff : List String
deriving DecidableEq

/- The cost/token totals syncSession recomputes from the complete fetched
history (adapter.ts lines 643-659): plain sums of the assistant messages'
cumulative values, no clamping and no reference to the previous aggregate. -/
def fetchedTotals (messages : List FetchedMessage) : ℚ × TokenSummary :=
  messages.foldl
    (fun acc fm =>
      if fm.info.role = .assistant then
        let cost := fm.info.cost.getD 0
        let base := (acc.1 + cost, acc.2)
        match fm.info.tokens with
        | none => base
        | some tk =>
          (base.1,
            { input := base.2.input + tk.input.getD 0
              output := base.2.output + tk.output.getD 0
              reasoning := base.2.reasoning + tk.reasoning.getD 0
              cacheRead := base.2.cacheRead + ((tk.cache.bind (fun c => c.read)).getD 0)
              cacheWrite := base.2.cacheWrite + ((tk.cache.bind (fun c => c.write)).getD 0) })
      else acc)
    (0, TokenSummary.zero)

/- syncSession (adapter.ts lines 627-677): no-op when the session was already
fully synced; otherwise upsert the fetched session, replace todos, replace
the running aggregates wholesale with the fetched totals, keep the most
recent 100 fetched messages, drop part entries that belong to no kept
message of this session, install the fetched parts, replace the diff, mark
the session fully synced and recompute the derived status. -/
def syncSession (st : SyncState) (sessionID : String) (fetched : FetchedSession) :
    SyncState × List StoreEvent :=
  if sessionID ∈ st.fullSynced then (st, [])
  else
    let m := binarySearch st.session sessionID (fun s => s.id)
    let session' :=
      if m.found then st.session.set m.index fetched.session
      else st.session.insertIdx m.index fetched.session
    let totals := fetchedTotals fetched.messages
    let recent := fetched.messages.drop (fetched.messages.length - 100)
    let st1 :=
      { st with
        session := session'
        todo := st.todo.set sessionID fetched.todos
        session_cost := st.session_cost.set sessionID totals.1
        session_tokens := st.session_tokens.set sessionID totals.2
        message := st.message.set sessionID (recent.map (fun fm : FetchedMessage => fm.info)) }
    let keys := st1.part.map (fun p : String × List Part => p.1)
    let cleaned := keys.foldl
      (fun acc key =>
        let belongs := recent.any (fun fm => fm.info.id = key)
        let everyOther :=
          match st1.message.get sessionID with
          | none => false
          | some l => l.all (fun mm => mm.id ≠ key)
        if !belongs && everyOther then acc.erase key else acc)
      st1.part
    let withParts := recent.foldl (fun acc fm => Rec.set acc fm.info.id fm.parts) cleaned
    let st2 :=
      { st1 with
        part := withParts
        session_diff := st1.session_diff.set sessionID fetched.diff
        fullSynced := sessionID :: st1.fullSynced }
    updateDerivedStatus sessionID st2

/- ---------------------------------------------------------------------
Dispatch router (src/router.ts, class HeadlessRouter). -/

/- A registered consumer as the router sees it: identity, channel label, and
whether the optional onInboundMessage handler is implemented. -/
structure Adapter : Type where
  id : String
  channel : String
  hasOnInboundMessage : Bool
deriving DecidableEq

structure MessageOrigin : Type where
  adapterId : String
  channel : String
deriving DecidableEq

/- `new Map(config.adapters.map((adapter) => [adapter.id, adapter]))`
(router.ts line 29). -/
def mkAdapters (adapters : List Adapter) : Rec Adapter :=
  adapters.foldl (fun m a => Rec.set m a.id a) []

structure RouterState : Type where
  adapters : Rec Adapter
  sessionAdapters : Rec String
  defaultAdapterId : Option String
  pendingPromptOrigins : Rec (List String)
  timeoutMs : ℚ
deriving DecidableEq

/- getAdapter (router.ts lines 163-168): per-session override, else the
configured default, else the sole registered adapter, else none. -/
def getAdapter (r : RouterState) (sessionID : String) : Option Adapter :=
  match (r.sessionAdapters.get sessionID).orElse (fun _ => r.defaultAdapterId) with
  | some mapped => r.adapters.get mapped
  | none =>
    if r.adapters.length = 1 then (r.adapters.head?).map (fun p => p.2) else none

/- setSessionAdapter (router.ts lines 52-57); throws on unregistered ids. -/
def setSessionAdapter (r : RouterState) (sessionID : String) (adapterID : String) :
    Except String RouterState :=
  if (r.adapters.get adapterID).isNone then .error ("Adapter not registered: " ++ adapterID)
  else .ok { r with sessionAdapters := r.sessionAdapters.set sessionID adapterID }

/- queuePromptOrigin (router.ts lines 170-177). -/
def queuePromptOrigin (r : RouterState) (sessionID : String) (adapterID : String) :
    RouterState :=
  match r.pendingPromptOrigins.get sessionID with
  | some queue =>
    { r with pendingPromptOrigins := r.pendingPromptOrigins.set sessionID (queue ++ [adapterID]) }
  | none =>
    { r with pendingPromptOrigins := r.pendingPromptOrigins.set sessionID [adapterID] }

/- shiftPromptOrigin (router.ts lines 179-187). -/
def shiftPromptOrigin (r : RouterState) (sessionID : String) :
    Option String × RouterState :=
  match r.pendingPromptOrigins.get sessionID with
  | none => (none, r)
  | some [] => (none, r)
  | some (origin :: rest) =>
    if rest.length = 0 then
      (some origin, { r with pendingPromptOrigins := r.pendingPromptOrigins.erase sessionID })
    else
      (some origin, { r with pendingPromptOrigins := r.pendingPromptOrigins.set sessionID rest })

/- resolveOrigin (router.ts lines 189-195). -/
def resolveOrigin (r : RouterState) (adapterId : String) : MessageOrigin :=
  match r.adapters.get adapterId with
  | some adapter => { adapterId := adapterId, channel := adapter.channel }
  | none => { adapterId := adapterId, channel := "unknown" }

/- resolveUserMessageText (router.ts lines 197-214): concatenation of the
non-empty texts of the message's text parts, else the summary body, else the
summary title, else the empty string. -/
def resolveUserMessageText (store : SyncState) (message : Message) : String :=
  let parts := (store.parts message.id).filter (fun p => p.type = "text")
  let partText := String.join
    ((parts.map (fun p => p.attrs.get "text")).filterMap
      (fun t => match t with
        | some s => if s.length > 0 then some s else none
        | none => none))
  if partText.length > 0 then partText
  else if (message.summaryBody.getD "").length > 0 then message.summaryBody.getD ""
  else if (message.summaryTitle.getD "").length > 0 then message.summaryTitle.getD ""
  else ""

/- The externally visible calls the router makes while handling one store
notification: calls into the remote service through the connection manager,
and calls into a consumer. -/
inductive RouterAction : Type
  | promptCall (sessionID : String) (text : String)
  | inboundMessage (adapterID : String) (sessionID : String) (text : String)
      (origin : MessageOrigin)
  | permissionReplyCall (sessionID : String) (requestID : String) (reply : String)
      (message : Option String)
  | questionReplyCall (sessionID : String) (requestID : String)
      (answers : List (List String))
  | questionRejectCall (sessionID : String) (requestID : String)
  | timeoutRaceStarted (adapterID : String) (label : String)
deriving DecidableEq

/- promptWithOrigin (router.ts lines 63-69): throw on unregistered adapter,
else record the origin in the per-session FIFO and forward the prompt. -/
def promptWithOrigin (r : RouterState) (sessionID : String) (text : String)
    (adapterID : String) : Except String (RouterState × List RouterAction) :=
  if (r.adapters.get adapterID).isNone then .error ("Adapter not registered: " ++ adapterID)
  else .ok (queuePromptOrigin r sessionID adapterID, [.promptCall sessionID text])

/- The store's userMessage subscription (router.ts lines 93-108).  Modelled
from the spec: the emitting side lives in src/store.ts, which is not under
src/ (the SyncStore bundled into adapter.ts predates the userMessage store
event); per the spec, a user-authored message upsert surfaces as exactly one
inbound-message notification carrying the session and the message, which this
handler receives. -/
def handleUserMessage (r : RouterState) (store : SyncState) (sessionID : String)
    (message : Message) : RouterState × List RouterAction :=
  match getAdapter r sessionID with
  | none => (r, [])
  | some adapter =>
    if !adapter.hasOnInboundMessage then (r, [])
    else
      let shifted := shiftPromptOrigin r sessionID
      let originAdapterId := shifted.1
      let r1 := shifted.2
      let originTruthy := decide (originAdapterId.getD "" ≠ "")
      if originTruthy && decide (originAdapterId.getD "" = adapter.id) then (r1, [])
      else
        let origin :=
          if originTruthy then resolveOrigin r1 (originAdapterId.getD "")
          else { adapterId := "tui", channel := "terminal" }
        let text := resolveUserMessageText store message
        (r1, [.inboundMessage adapter.id sessionID text origin])

/- A consumer round-trip as observed by the router: the handler either throws
synchronously, or returns a promise that settles (fulfilled or rejected)
after a delay, or never settles. -/
inductive HandlerOutcome (α : Type) : Type
  | settlesOk (afterMs : ℚ) (value : α)
  | settlesErr (afterMs : ℚ) (message : String)
  | neverSettles
deriving DecidableEq

inductive ConsumerCall (α : Type) : Type
  | syncThrow (message : String)
  | promise (outcome : HandlerOutcome α)
deriving DecidableEq

/- The observable result of withTimeout (router.ts lines 279-287): a race of
the handler promise against a timer of timeoutMs, with the timer cleared by
the `finally` once the race settles.  The race always settles — either the
handler promise settles first or the timer fires at timeoutMs — so the
`finally` cleanup runs on every outcome. -/
structure RaceResult (α : Type) : Type where
  timerStarted : Bool
  timerCleared : Bool
  outcome : Except String α

def withTimeout {α : Type} (timeoutMs : ℚ) (label : String) (o : HandlerOutcome α) :
    RaceResult α :=
  match o with
  | .settlesOk t v =>
    if t < timeoutMs then { timerStarted := true, timerCleared := true, outcome := .ok v }
    else { timerStarted := true, timerCleared := true,
           outcome := .error (label ++ " request timed out") }
  | .settlesErr t msg =>
    if t < timeoutMs then
      { timerStarted := true, timerCleared := true, outcome := .error msg }
    else { timerStarted := true, timerCleared := true,
           outcome := .error (label ++ " request timed out") }
  | .neverSettles =>
    { timerStarted := true, timerCleared := true,
      outcome := .error (label ++ " request timed out") }

inductive PermissionReplyKind : Type
  | once
  | always
  | reject
deriving DecidableEq

def PermissionReplyKind.str : PermissionReplyKind → String
  | .once => "once"
  | .always => "always"
  | .reject => "reject"

structure PermissionReply : Type where
  reply : PermissionReplyKind
  message : Option String
deriving DecidableEq

inductive QuestionReply : Type
  | answers (a : List (List String))
  | rejectedReply
deriving DecidableEq

/- replyQuestion (router.ts lines 263-273): a rejection translates to the
remote reject call, an answer set to the remote reply call. -/
def replyQuestionActions (sessionID : String) (requestID : String) :
    QuestionReply → List RouterAction
  | .rejectedReply => [.questionRejectCall sessionID requestID]
  | .answers a => [.questionReplyCall sessionID requestID a]

/- handlePermission (router.ts lines 216-235).  With no adapter the request
is rejected at once, without constructing the timeout race; with an adapter,
a synchronous throw from the handler is caught by the try block before
withTimeout ever runs, and a settled failure or timeout of the race falls
back to the reject reply. -/
def handlePermission (r : RouterState) (sessionID : String)
    (request : PermissionRequest) (consumer : ConsumerCall PermissionReply) :
    List RouterAction :=
  match getAdapter r sessionID with
  | none => [.permissionReplyCall sessionID request.id "reject" none]
  | some adapter =>
    match consumer with
    | .syncThrow _ => [.permissionReplyCall sessionID request.id "reject" none]
    | .promise o =>
      let race := withTimeout r.timeoutMs "permission" o
      match race.outcome with
      | .ok reply =>
        [.timeoutRaceStarted adapter.id "permission",
         .permissionReplyCall sessionID request.id reply.reply.str reply.message]
      | .error _ =>
        [.timeoutRaceStarted adapter.id "permission",
         .permissionReplyCall sessionID request.id "reject" none]

/- handleQuestion (router.ts lines 237-252), same shape with the reject
fallback going through question.reject. -/
def handleQuestion (r : RouterState) (sessionID : String)
    (request : QuestionRequest) (consumer : ConsumerCall QuestionReply) :
    List RouterAction :=
  match getAdapter r sessionID with
  | none => [.questionRejectCall sessionID request.id]
  | some adapter =>
    match consumer with
    | .syncThrow _ => [.questionRejectCall sessionID request.id]
    | .promise o =>
      let race := withTimeout r.timeoutMs "question" o
      match race.outcome with
      | .ok reply =>
        .timeoutRaceStarted adapter.id "question" :: replyQuestionActions sessionID request.id reply
      | .error _ =>
        [.timeoutRaceStarted adapter.id "question",
         .questionRejectCall sessionID request.id]

/- ---------------------------------------------------------------------
Connection-manager event batching (src/client.ts lines 261-289).  `timer`
holds the delay the pending setTimeout was armed with, `lastFlush` the time
of the last flush; handleEvent is evaluated at the arrival time `now`. -/
structure BatchState : Type where
  queue : List Event
  timer : Option ℚ
  lastFlush : ℚ
  batchInterval : ℚ
deriving DecidableEq

/- flushQueue (client.ts lines 273-283): deliver the queued events in
arrival order, clear the timer and record the flush time. -/
def flushQueue (st : BatchState) (now : ℚ) : BatchState × List Event :=
  if st.queue.isEmpty then (st, [])
  else ({ st with queue := [], timer := none, lastFlush := now }, st.queue)

/- handleEvent (client.ts lines 261-271): enqueue; if a timer is pending do
nothing more; else flush immediately when at least batchInterval elapsed
since the last flush, else arm a timer — with delay `batchInterval`, the
full interval. -/
def handleEvent (st : BatchState) (now : ℚ) (e : Event) : BatchState × List Event :=
  let st1 := { st with queue := st.queue ++ [e] }
  let elapsed := now - st.lastFlush
  if st1.timer.isSome then (st1, [])
  else if elapsed < st1.batchInterval then
    ({ st1 with timer := some st1.batchInterval }, [])
  else flushQueue st1 now

/- The derived-status decision tree exactly as the claim states it:
compacting flag, else empty history, else last message role, else presence of
the completion timestamp. -/
def specDerivedStatus (session : Session) (messages : List Message) :
    DerivedSessionStatus :=
  if session.compacting then .compacting
  else
    match messages.getLast? with
    | none => .idle
    | some last =>
      if last.role = .user then .working
      else if last.completed.isSome then .idle else .working

def RouterAction.isRaceStart : RouterAction → Bool
  | .timeoutRaceStarted _ _ => true
  | _ => false

/- Concrete fixtures used by the closed witness and counterexample
theorems. -/
def adapterA : Adapter := { id := "A", channel := "chanA", hasOnInboundMessage := true }

def adapterB : Adapter := { id := "B", channel := "chanB", hasOnInboundMessage := true }

def routerAB : RouterState :=
  { adapters := mkAdapters [adapterA, adapterB], sessionAdapters := [],
    defaultAdapterId := none, pendingPromptOrigins := [], timeoutMs := 300000 }

def routerA : RouterState :=
  { adapters := mkAdapters [adapterA], sessionAdapters := [],
    defaultAdapterId := none, pendingPromptOrigins := [], timeoutMs := 300000 }

def msgToolCalls : Message :=
  { id := "m", sessionID := "s", role := .assistant, completed := none,
    cost := none, tokens := none, finish := some "tool-calls",
    summaryBody := none, summaryTitle := none }

def stToolCalls : SyncState :=
  { SyncState.init with
    session := [{ id := "s", compacting := false }]
    message := [("s", [msgToolCalls])] }

/- Cumulative values as accumulateCost reads them off a possibly-absent
stored message: the cost (0 when absent or not a number) and the five token
fields (0 when the payload or the field is absent). -/
def optCost (p : Option Message) : ℚ := (p.bind (fun q => q.cost)).getD 0

def emptyTokens : TokensPayload :=
  { input := none, output := none, reasoning := none, cache := none }

def prevTokensOf (p : Option Message) : TokensPayload :=
  (p.bind (fun q => q.tokens)).getD emptyTokens

def optTokInput (p : Option Message) : ℚ := (prevTokensOf p).input.getD 0

def optTokOutput (p : Option Message) : ℚ := (prevTokensOf p).output.getD 0

def optTokReasoning (p : Option Message) : ℚ := (prevTokensOf p).reasoning.getD 0

def optCacheRead (p : Option Message) : ℚ :=
  ((prevTokensOf p).cache.bind (fun c => c.read)).getD 0

def optCacheWrite (p : Option Message) : ℚ :=
  ((prevTokensOf p).cache.bind (fun c => c.write)).getD 0

/- Nonnegativity of the cumulative values of a (possibly absent) stored
message — costs and token counts are cumulative money/counts, so every value
the remote service reports is nonnegative. -/
def prevNonneg (p : Option Message) : Prop :=
  0 ≤ optCost p ∧ 0 ≤ optTokInput p ∧ 0 ≤ optTokOutput p ∧
  0 ≤ optTokReasoning p ∧ 0 ≤ optCacheRead p ∧ 0 ≤ optCacheWrite p

/- Pointwise order on the running token aggregate. -/
def TokenSummary.le (a : TokenSummary) (b : TokenSummary) : Prop :=
  a.input ≤ b.input ∧ a.output ≤ b.output ∧ a.reasoning ≤ b.reasoning ∧
  a.cacheRead ≤ b.cacheRead ∧ a.cacheWrite ≤ b.cacheWrite

def isCompleteEvt : StoreEvent → Bool
  | .assistantMessageComplete _ _ _ => true
  | _ => false

/- Whether the stored message is an assistant message whose completion
timestamp is currently set (the condition of emitAssistantMessageFromPart). -/
def msgCompleteNow (st : SyncState) (sessionID : String) (messageID : String) : Bool :=
  match getMessage st sessionID messageID with
  | some mm => decide (mm.role = .assistant) && mm.completed.isSome
  | none => false

/- When a store event emits the assistantMessageComplete notification: a
message upsert does so exactly on an unset-to-set completion transition
(with the previous stored message counted as complete only when it was an
assistant message with a set timestamp), while part upsert/delta/removal
events re-emit it whenever the owning assistant message is currently
complete; no other event emits it. -/
def completeEmissionExpected (st : SyncState) : Event → Bool
  | .messageUpdated info =>
    decide (info.role = .assistant) && info.completed.isSome &&
      !(match previousMessage st info with
        | some p => decide (p.role = .assistant) && p.completed.isSome
        | none => false)
  | .partUpdated part => msgCompleteNow st part.sessionID part.messageID
  | .partDelta sessionID messageID partID _ _ =>
    (match st.part.get messageID with
     | none => false
     | some parts => (binarySearch parts partID (fun p => p.id)).found) &&
    msgCompleteNow st sessionID messageID
  | .partRemoved sessionID messageID _ =>
    (st.part.get messageID).isSome && msgCompleteNow st sessionID messageID
  | _ => false

/- Modelled from the spec: the userMessage store notification (emitted by the
SyncStore in src/store.ts, which is not under src/ — the SyncStore bundled
into adapter.ts predates it).  Per the spec, a user-authored message upsert
surfaces as exactly one inbound-message notification carrying the owning
session and the message. -/
def userMessageNotification (info : Message) : Option (String × Message) :=
  if info.role = .user then some (info.sessionID, info) else none

/- Fixtures for the cost-accumulation scenario: a message carrying only a
cumulative cost, and a store already holding it with the matching running
aggregate. -/
def costMsg (c : ℚ) : Message :=
  { id := "m1", sessionID := "session", role := .assistant, completed := none,
    cost := some c, tokens := none, finish := none, summaryBody := none,
    summaryTitle := none }

def stCost : SyncState :=
  { SyncState.init with
    message := [("session", [costMsg 0.10])]
    session_cost := [("session", 0.10)] }

/- Fixtures for the aggregate-regression counterexample: a session with a
running cost of 10 and a full-session sync whose fetched history is empty. -/
def stRich : SyncState :=
  { SyncState.init with
    session := [{ id := "s", compacting := false }]
    session_cost := [("s", 10)] }

def emptyFetch : FetchedSession :=
  { session := { id := "s", compacting := false }, messages := [], todos := [], diff := [] }

/- Fixtures for the completion-notification counterexample: a completed
assistant message already in the store, then a part upsert for it. -/
def completedMsg : Message :=
  { id := "m", sessionID := "s", role := .assistant, completed := some 5,
    cost := none, tokens := none, finish := none, summaryBody := none,
    summaryTitle := none }

def stCompleted : SyncState :=
  { SyncState.init with message := [("s", [completedMsg])] }

def pText : Part :=
  { id := "p1", sessionID := "s", messageID := "m", type := "text",
    attrs := [("text", "hi")] }

/- Fixtures for the history-cap scenario: message identifiers msg-000 through
msg-100, a part attached to msg-000, and the 102-event feed. -/
def pad3 (i : ℕ) : String :=
  (if i < 10 then "00" else if i < 100 then "0" else "") ++ toString i

def msgId (i : ℕ) : String := "msg-" ++ pad3 i

def capMsg (i : ℕ) : Message :=
  { id := msgId i, sessionID := "session", role := .assistant, completed := none,
    cost := none, tokens := none, finish := none, summaryBody := none,
    summaryTitle := none }

def capPart : Part :=
  { id := "part-000", sessionID := "session", messageID := msgId 0, type := "text",
    attrs := [("text", "hello")] }

def capEvents : List Event :=
  .messageUpdated (capMsg 0) :: .partUpdated capPart ::
    (List.range 100).map (fun i => .messageUpdated (capMsg (i + 1)))

def capFinal : SyncState := applyEvents SyncState.init capEvents

/- A store already holding 101 messages for one session plus a part entry for
the oldest one. -/
def stFull : SyncState :=
  { SyncState.init with
    message := [("session", (List.range 101).map capMsg)]
    part := [(msgId 0, [capPart])] }

/- Fixture for the echo-suppression scenario: a user-authored message. -/
def userMsg : Message :=
  { id := "um", sessionID := "s", role := .user, completed := none, cost := none,
    tokens := none, finish := none, summaryBody := none, summaryTitle := none }

/- ---------------------------------------------------------------------
Record lemmas. -/

theorem Rec.get_nil {α : Type} (k : String) : Rec.get ([] : Rec α) k = none := rfl

theorem Rec.get_cons {α : Type} (k₀ : String) (v₀ : α) (rest : Rec α) (k' : String) :
    Rec.get ((k₀, v₀) :: rest) k' = if k₀ = k' then some v₀ else Rec.get rest k' := by
  by_cases h : k₀ = k'
  · simp [Rec.get, List.find?, h]
  · have hb : (k₀ == k') = false := by simp [h]
    simp [Rec.get, List.find?, hb, h]

theorem Rec.get_set {α : Type} (r : Rec α) (k : String) (v : α) (k' : String) :
    Rec.get (r.set k v) k' = if k' = k then some v else r.get k' := by
  induction r with
  | nil =>
    by_cases h : k' = k
    · subst h
      simp [Rec.set, Rec.get_cons]
    · have h2 : ¬ k = k' := fun hh => h hh.symm
      simp [Rec.set, Rec.get_cons, h, h2, Rec.get_nil]
  | cons hd tl ih =>
    obtain ⟨k₀, v₀⟩ := hd
    by_cases h1 : k₀ = k
    · subst h1
      by_cases h2 : k' = k₀
      · subst h2
        simp [Rec.set, Rec.get_cons]
      · have h3 : ¬ k₀ = k' := fun hh => h2 hh.symm
        simp [Rec.set, Rec.get_cons, h2, h3]
    · by_cases h2 : k' = k
      · subst h2
        have h3 : ¬ k₀ = k' := h1
        simp [Rec.set, Rec.get_cons, h1, h3, ih]
      · simp [Rec.set, Rec.get_cons, h1, h2, ih]

theorem Rec.erase_cons {α : Type} (k₀ : String) (v₀ : α) (tl : Rec α) (k : String) :
    Rec.erase ((k₀, v₀) :: tl) k =
      if k₀ = k then Rec.erase tl k else (k₀, v₀) :: Rec.erase tl k := by
  by_cases h : k₀ = k <;> simp [Rec.erase, List.filter_cons, h]

theorem Rec.get_erase {α : Type} (r : Rec α) (k : String) (k' : String) :
    Rec.get (r.erase k) k' = if k' = k then none else r.get k' := by
  induction r with
  | nil => by_cases h : k' = k <;> simp [Rec.erase, Rec.get_nil, h]
  | cons hd tl ih =>
    obtain ⟨k₀, v₀⟩ := hd
    by_cases h1 : k₀ = k
    · subst h1
      by_cases h2 : k' = k₀
      · subst h2
        simp [Rec.erase_cons, Rec.get_cons, ih]
      · have h3 : ¬ k₀ = k' := fun hh => h2 hh.symm
        simp [Rec.erase_cons, Rec.get_cons, h2, h3, ih]
    · by_cases h2 : k' = k
      · subst h2
        simp [Rec.erase_cons, Rec.get_cons, h1, ih]
      · simp [Rec.erase_cons, Rec.get_cons, h1, h2, ih]

/- ---------------------------------------------------------------------
Claim theorems. -/

/-- C10: for every store state and identifier with no corresponding entry,
the query accessors are total with empty defaults — messages, parts,
permissions, questions and todos return the empty list, sessionCost returns
0, and sessionTokens returns the all-zero token summary. -/
theorem store_queries_total (st : SyncState) (sessionID : String) (messageID : String)
    (hm : st.message.get sessionID = none) (hp : st.part.get messageID = none)
    (hperm : st.permission.get sessionID = none) (hq : st.question.get sessionID = none)
    (ht : st.todo.get sessionID = none) (hc : st.session_cost.get sessionID = none)
    (htok : st.session_tokens.get sessionID = none) :
    st.messages sessionID = [] ∧ st.parts messageID = [] ∧
    st.permissions sessionID = [] ∧ st.questions sessionID = [] ∧
    st.todos sessionID = [] ∧ st.sessionCost sessionID = 0 ∧
    st.sessionTokens sessionID = TokenSummary.zero := by
  simp [SyncState.messages, SyncState.parts, SyncState.permissions,
        SyncState.questions, SyncState.todos, SyncState.sessionCost,
        SyncState.sessionTokens, hm, hp, hperm, hq, ht, hc, htok]

/-- C10 witness: the accessors at the empty initial state and an unknown id. -/
theorem store_queries_total_witness :
    (Rec.get SyncState.init.message "nope" = none) ∧
    (SyncState.init.messages "nope" = [] ∧ SyncState.init.parts "nope" = [] ∧
     SyncState.init.permissions "nope" = [] ∧ SyncState.init.questions "nope" = [] ∧
     SyncState.init.todos "nope" = [] ∧ SyncState.init.sessionCost "nope" = 0 ∧
     SyncState.init.sessionTokens "nope" = TokenSummary.zero) :=
  ⟨rfl, store_queries_total SyncState.init "nope" "nope" rfl rfl rfl rfl rfl rfl rfl⟩

/-- C6: for every stored session the derived status equals the claimed
decision tree — compacting if the flag is set, else idle with no messages,
else working when the last message is a user message, else idle exactly when
the last (assistant) message's completion timestamp is set; in particular an
assistant message with a tool-calls finish reason but no completion
timestamp yields working. -/
theorem derived_status_matches_spec :
    (∀ (st : SyncState) (sessionID : String) (s : Session),
      getSession st sessionID = some s →
      getSessionStatus st sessionID =
        specDerivedStatus s ((st.message.get sessionID).getD [])) ∧
    (∀ (st : SyncState) (sessionID : String) (s : Session) (last : Message),
      getSession st sessionID = some s → s.compacting = false →
      ((st.message.get sessionID).getD []).getLast? = some last →
      last.role = .assistant → last.finish = some "tool-calls" →
      last.completed = none →
      getSessionStatus st sessionID = .working) := by
  constructor
  · intro st sessionID s h
    simp [getSessionStatus, specDerivedStatus, h]
  · intro st sessionID s last h hc hl hr hf hcomp
    simp [getSessionStatus, h, hc, hl, hr, hcomp]

/-- C6 witness: a session whose last message is an assistant message with a
tool-calls finish reason and no completion timestamp derives working. -/
theorem derived_status_matches_spec_witness :
    (getSession
        { SyncState.init with
          session := [{ id := "s", compacting := false }]
          message := [("s",
            [{ id := "m", sessionID := "s", role := .assistant, completed := none,
               cost := none, tokens := none, finish := some "tool-calls",
               summaryBody := none, summaryTitle := none }])] } "s" =
      some { id := "s", compacting := false }) ∧
    (getSessionStatus
        { SyncState.init with
          session := [{ id := "s", compacting := false }]
          message := [("s",
            [{ id := "m", sessionID := "s", role := .assistant, completed := none,
               cost := none, tokens := none, finish := some "tool-calls",
               summaryBody := none, summaryTitle := none }])] } "s" = .working) :=
  ⟨by decide,
   derived_status_matches_spec.2 _ "s" { id := "s", compacting := false }
     { id := "m", sessionID := "s", role := .assistant, completed := none,
       cost := none, tokens := none, finish := some "tool-calls",
       summaryBody := none, summaryTitle := none }
     (by decide) rfl (by decide) rfl rfl rfl⟩

/-- C9 counterexample: with the default 16ms interval, a last flush at time 0
and an event arriving at time 10 with no timer pending, the code arms the
flush timer with the full interval 16, not the remainder 16 - 10 = 6 that
the claim requires. -/
theorem batch_timer_remainder_cex :
    ((handleEvent { queue := [], timer := none, lastFlush := 0, batchInterval := 16 }
        10 .unhandled).1.timer = some 16) ∧
    (16 : ℚ) - 10 = 6 ∧ some (16 : ℚ) ≠ some (6 : ℚ) := by
  refine ⟨?_, by norm_num, by norm_num⟩
  norm_num [handleEvent]

/-- C9 amended: each inbound event is enqueued; with a timer pending nothing
else happens; with no timer pending and less than the configured interval
elapsed since the last flush, a timer is armed for the full configured
interval (not the remainder); otherwise the queue is flushed immediately, in
arrival order. -/
theorem batch_handleEvent_batching (st : BatchState) (now : ℚ) (e : Event) :
    (st.timer.isSome = true →
      handleEvent st now e = ({ st with queue := st.queue ++ [e] }, [])) ∧
    (st.timer = none → now - st.lastFlush < st.batchInterval →
      handleEvent st now e =
        ({ st with queue := st.queue ++ [e], timer := some st.batchInterval }, [])) ∧
    (st.timer = none → ¬ now - st.lastFlush < st.batchInterval →
      handleEvent st now e =
        ({ st with queue := [], timer := none, lastFlush := now }, st.queue ++ [e])) := by
  refine ⟨?_, ?_, ?_⟩
  · intro h
    simp [handleEvent, h]
  · intro h hlt
    simp [handleEvent, h, hlt]
  · intro h hge
    simp [handleEvent, flushQueue, h, hge]

/-- C9 witness: the amended behaviour at the counterexample's input — the
armed timer delay is the full 16ms interval. -/
theorem batch_handleEvent_batching_witness :
    ((none : Option ℚ) = none ∧ (10 : ℚ) - 0 < 16) ∧
    handleEvent { queue := [], timer := none, lastFlush := 0, batchInterval := 16 }
        10 .unhandled =
      ({ queue := [.unhandled], timer := some 16, lastFlush := 0, batchInterval := 16 }, []) :=
  ⟨⟨rfl, by norm_num⟩,
   (batch_handleEvent_batching
      { queue := [], timer := none, lastFlush := 0, batchInterval := 16 }
      10 .unhandled).2.1 rfl (by norm_num)⟩

/-- C7: when no consumer resolves for a permission request (no per-session
override, no default adapter, and not exactly one registered consumer), the
router replies reject to the remote service at once and never constructs the
round-trip timeout race. -/
theorem permission_no_adapter_auto_rejects (r : RouterState) (sessionID : String)
    (request : PermissionRequest) (consumer : ConsumerCall PermissionReply)
    (hover : r.sessionAdapters.get sessionID = none)
    (hdef : r.defaultAdapterId = none)
    (hsize : r.adapters.length ≠ 1) :
    handlePermission r sessionID request consumer =
      [.permissionReplyCall sessionID request.id "reject" none] ∧
    (handlePermission r sessionID request consumer).all
      (fun a => !a.isRaceStart) = true := by
  have hga : getAdapter r sessionID = none := by
    simp [getAdapter, hover, hdef, Option.orElse, hsize]
  refine ⟨?_, ?_⟩ <;> simp [handlePermission, hga, RouterAction.isRaceStart]

/-- C7 witness: two registered consumers, no override and no default — the
permission request auto-rejects without a timeout race. -/
theorem permission_no_adapter_auto_rejects_witness :
    (routerAB.sessionAdapters.get "s" = none ∧ routerAB.defaultAdapterId = none ∧
     routerAB.adapters.length ≠ 1) ∧
    handlePermission routerAB "s" { id := "req", sessionID := "s", payload := "write" }
        (.syncThrow "boom") =
      [.permissionReplyCall "s" "req" "reject" none] :=
  ⟨⟨rfl, rfl, by decide⟩,
   (permission_no_adapter_auto_rejects routerAB "s"
      { id := "req", sessionID := "s", payload := "write" } (.syncThrow "boom")
      rfl rfl (by decide)).1⟩

/-- C8: with a resolved consumer, a question handler that throws
synchronously, rejects its promise, or exceeds the round-trip timeout still
causes the router to issue the remote reject call (the failure is absorbed,
never propagated), and the timeout race's timer is started and cleared on
every outcome. -/
theorem question_failure_falls_back_to_reject (r : RouterState) (sessionID : String)
    (request : QuestionRequest) (adapter : Adapter)
    (hga : getAdapter r sessionID = some adapter) :
    (∀ msg, handleQuestion r sessionID request (.syncThrow msg) =
      [.questionRejectCall sessionID request.id]) ∧
    (∀ (o : HandlerOutcome QuestionReply) (err : String),
      (withTimeout r.timeoutMs "question" o).outcome = .error err →
      handleQuestion r sessionID request (.promise o) =
        [.timeoutRaceStarted adapter.id "question",
         .questionRejectCall sessionID request.id]) ∧
    (∀ (o : HandlerOutcome QuestionReply),
      (withTimeout r.timeoutMs "question" o).timerStarted = true ∧
      (withTimeout r.timeoutMs "question" o).timerCleared = true) := by
  refine ⟨?_, ?_, ?_⟩
  · intro msg
    simp [handleQuestion, hga]
  · intro o err he
    simp [handleQuestion, hga, he]
  · intro o
    cases o <;> simp [withTimeout] <;> split <;> simp

/-- C8 witness: a single registered consumer whose question handler throws
synchronously — the router still rejects the question remotely. -/
theorem question_failure_falls_back_to_reject_witness :
    (getAdapter routerA "s" = some adapterA) ∧
    handleQuestion routerA "s" { id := "q", sessionID := "s", payload := "pick" }
        (.syncThrow "boom") =
      [.questionRejectCall "s" "q"] :=
  ⟨by decide,
   (question_failure_falls_back_to_reject routerA "s"
      { id := "q", sessionID := "s", payload := "pick" } adapterA (by decide)).1 "boom"⟩


/- Projection lemmas: updateDerivedStatus only touches the derivedStatus
cache, and accumulateCost only touches the running aggregates. -/

theorem upd_message (sid : String) (s : SyncState) :
    (updateDerivedStatus sid s).1.message = s.message := by
  unfold updateDerivedStatus
  dsimp only
  split <;> rfl

theorem upd_part (sid : String) (s : SyncState) :
    (updateDerivedStatus sid s).1.part = s.part := by
  unfold updateDerivedStatus
  dsimp only
  split <;> rfl

theorem upd_session_cost (sid : String) (s : SyncState) :
    (updateDerivedStatus sid s).1.session_cost = s.session_cost := by
  unfold updateDerivedStatus
  dsimp only
  split <;> rfl

theorem upd_session_tokens (sid : String) (s : SyncState) :
    (updateDerivedStatus sid s).1.session_tokens = s.session_tokens := by
  unfold updateDerivedStatus
  dsimp only
  split <;> rfl

theorem acc_message (m : Message) (p : Option Message) (s : SyncState) :
    (accumulateCost m p s).1.message = s.message := by
  unfold accumulateCost
  dsimp only
  split
  · rfl
  · split
    · rfl
    · split <;> (try split) <;> rfl

theorem acc_part (m : Message) (p : Option Message) (s : SyncState) :
    (accumulateCost m p s).1.part = s.part := by
  unfold accumulateCost
  dsimp only
  split
  · rfl
  · split
    · rfl
    · split <;> (try split) <;> rfl

/- The eviction loop drops everything beyond the most recent 100 from the
front and erases each dropped message's part entry. -/
theorem evictOldest_spec (l : List Message) (p : Rec (List Part)) :
    evictOldest l p =
      (l.drop (l.length - 100),
       (l.take (l.length - 100)).foldl (fun acc m => acc.erase m.id) p) := by
  induction l generalizing p with
  | nil => simp [evictOldest]
  | cons a rest ih =>
    by_cases h : (a :: rest).length > 100
    · have h1 : 100 ≤ rest.length := by
        simp only [List.length_cons] at h
        omega
      have h2 : (a :: rest).length - 100 = (rest.length - 100) + 1 := by
        simp only [List.length_cons]
        omega
      rw [h2]
      simp only [evictOldest, if_pos h, ih, List.drop_succ_cons, List.take_succ_cons,
        List.foldl_cons]
    · have h0 : (a :: rest).length - 100 = 0 := by
        simp only [List.length_cons] at h ⊢
        omega
      rw [h0]
      simp only [evictOldest, if_neg h, List.drop_zero, List.take_zero, List.foldl_nil]

theorem foldl_erase_none {α : Type} (ks : List Message) (p : Rec α) (k : String)
    (h : Rec.get p k = none) :
    Rec.get (ks.foldl (fun acc m => acc.erase m.id) p) k = none := by
  induction ks generalizing p with
  | nil => exact h
  | cons a rest ih =>
    simp only [List.foldl_cons]
    apply ih
    rw [Rec.get_erase]
    by_cases hk : k = a.id <;> simp [hk, h]

theorem foldl_erase_mem {α : Type} (ks : List Message) (p : Rec α) (m' : Message)
    (h : m' ∈ ks) :
    Rec.get (ks.foldl (fun acc m => acc.erase m.id) p) m'.id = none := by
  induction ks generalizing p with
  | nil => cases h
  | cons a rest ih =>
    simp only [List.foldl_cons]
    rcases List.mem_cons.1 h with h1 | h1
    · subst h1
      apply foldl_erase_none
      rw [Rec.get_erase]
      simp
    · exact ih _ h1

set_option maxRecDepth 1000000 in
/-- C4: after every message-upsert event the session's message list is
exactly the upserted list with everything beyond the most recent 100 dropped
from the front (so it holds at most 100 messages), and every dropped
(oldest) message's part entry is deleted; in particular feeding upserts for
msg-000 through msg-100 (101 distinct messages, with a stored part for
msg-000) leaves exactly msg-001 through msg-100 and removes the part entry
of msg-000. -/
theorem message_cap_and_eviction :
    (∀ (st : SyncState) (info : Message),
      (processEvent st (.messageUpdated info)).1.message.get info.sessionID =
        some ((upsertMessages st info).drop ((upsertMessages st info).length - 100))) ∧
    (∀ (st : SyncState) (info : Message),
      (((processEvent st (.messageUpdated info)).1.message.get info.sessionID).getD
          []).length ≤ 100) ∧
    (∀ (st : SyncState) (info : Message) (m' : Message),
      m' ∈ (upsertMessages st info).take ((upsertMessages st info).length - 100) →
      (processEvent st (.messageUpdated info)).1.part.get m'.id = none) ∧
    ((capFinal.message.get "session").getD [] =
        (List.range 100).map (fun i => capMsg (i + 1)) ∧
     ((capFinal.message.get "session").getD []).length = 100 ∧
     capFinal.part.get (msgId 0) = none) := by
  have hmsg : ∀ (st : SyncState) (info : Message),
      (processEvent st (.messageUpdated info)).1.message.get info.sessionID =
        some ((upsertMessages st info).drop ((upsertMessages st info).length - 100)) := by
    intro st info
    simp only [processEvent, upd_message, acc_message, evictOldest_spec]
    rw [Rec.get_set]
    simp
  refine ⟨hmsg, ?_, ?_, ?_, ?_, ?_⟩
  · intro st info
    rw [hmsg st info]
    simp only [Option.getD_some, List.length_drop]
    omega
  · intro st info m' hm
    simp only [processEvent, upd_part, acc_part, evictOldest_spec]
    exact foldl_erase_mem _ _ _ hm
  · decide
  · decide
  · decide

set_option maxRecDepth 1000000 in
/-- C4 witness: a session already at 101 stored messages receives one more
upsert; the two oldest are dropped and msg-000's part entry is gone. -/
theorem message_cap_and_eviction_witness :
    (capMsg 0 ∈ (upsertMessages stFull (capMsg 101)).take
        ((upsertMessages stFull (capMsg 101)).length - 100)) ∧
    (processEvent stFull (.messageUpdated (capMsg 101))).1.part.get (capMsg 0).id =
      none :=
  ⟨by decide,
   message_cap_and_eviction.2.2.1 stFull (capMsg 101) (capMsg 0) (by decide)⟩


/- sessionCost / sessionTokens are untouched by the derived-status update. -/
theorem upd_sessionCost_q (sid : String) (s : SyncState) (x : String) :
    (updateDerivedStatus sid s).1.sessionCost x = s.sessionCost x := by
  simp [SyncState.sessionCost, upd_session_cost]

theorem upd_sessionTokens_q (sid : String) (s : SyncState) (x : String) :
    (updateDerivedStatus sid s).1.sessionTokens x = s.sessionTokens x := by
  simp [SyncState.sessionTokens, upd_session_tokens]

/- accumulateCost adds exactly the clamped cost delta to the session's
running cost, provided the previously stored cumulative cost is
nonnegative. -/
theorem acc_session_cost (m : Message) (p : Option Message) (s : SyncState)
    (hr : m.role = .assistant) (hp0 : 0 ≤ optCost p) :
    (accumulateCost m p s).1.sessionCost m.sessionID =
      s.sessionCost m.sessionID + max 0 (optCost (some m) - optCost p) := by
  have hC : optCost (some m) = m.cost.getD 0 := rfl
  have hP : optCost p = (p.bind (fun q => q.cost)).getD 0 := rfl
  have hrr : ¬ m.role ≠ Role.assistant := by simp [hr]
  by_cases h0 : m.cost.getD 0 = 0 ∧ m.tokens = none
  · have hmax : max 0 (optCost (some m) - optCost p) = 0 := by
      rw [hC, h0.1, max_eq_left]
      linarith
    rw [hmax, add_zero]
    unfold accumulateCost
    dsimp only
    rw [if_neg hrr, if_pos h0]
  · by_cases hd : 0 < m.cost.getD 0 - (p.bind (fun q => q.cost)).getD 0
    · have hmax : max 0 (optCost (some m) - optCost p) =
          m.cost.getD 0 - (p.bind (fun q => q.cost)).getD 0 := by
        rw [hC, hP, max_eq_right]
        linarith
      rw [hmax]
      unfold accumulateCost
      dsimp only
      rw [if_neg hrr, if_neg h0]
      dsimp only
      rw [if_pos hd]
      cases htk : m.tokens with
      | none =>
        dsimp only
        simp [SyncState.sessionCost, Rec.get_set]
      | some tk =>
        dsimp only
        simp [SyncState.sessionCost, Rec.get_set]
    · have hmax : max 0 (optCost (some m) - optCost p) = 0 := by
        rw [hC, hP, max_eq_left]
        linarith
      rw [hmax, add_zero]
      unfold accumulateCost
      dsimp only
      rw [if_neg hrr, if_neg h0]
      dsimp only
      rw [if_neg hd]
      cases htk : m.tokens with
      | none => rfl
      | some tk =>
        dsimp only
        simp [SyncState.sessionCost, SyncState.sessionTokens]

/- Structure-projection of an if-then-else state. -/
theorem ite_session_tokens (c : Prop) [Decidable c] (a : SyncState) (b : SyncState) :
    (if c then a else b).session_tokens =
      if c then a.session_tokens else b.session_tokens := by
  split <;> rfl

/- accumulateCost adds exactly the clamped per-field token deltas to the
session's running token aggregate, provided the previously stored cumulative
token values are nonnegative. -/
theorem acc_session_tokens (m : Message) (p : Option Message) (s : SyncState)
    (hr : m.role = .assistant) (hp : prevNonneg p) :
    ((accumulateCost m p s).1.sessionTokens m.sessionID).input =
      (s.sessionTokens m.sessionID).input +
        max 0 (optTokInput (some m) - optTokInput p) ∧
    ((accumulateCost m p s).1.sessionTokens m.sessionID).output =
      (s.sessionTokens m.sessionID).output +
        max 0 (optTokOutput (some m) - optTokOutput p) ∧
    ((accumulateCost m p s).1.sessionTokens m.sessionID).reasoning =
      (s.sessionTokens m.sessionID).reasoning +
        max 0 (optTokReasoning (some m) - optTokReasoning p) ∧
    ((accumulateCost m p s).1.sessionTokens m.sessionID).cacheRead =
      (s.sessionTokens m.sessionID).cacheRead +
        max 0 (optCacheRead (some m) - optCacheRead p) ∧
    ((accumulateCost m p s).1.sessionTokens m.sessionID).cacheWrite =
      (s.sessionTokens m.sessionID).cacheWrite +
        max 0 (optCacheWrite (some m) - optCacheWrite p) := by
  obtain ⟨hc0, hi0, ho0, hre0, hcr0, hcw0⟩ := hp
  have hrr : ¬ m.role ≠ Role.assistant := by simp [hr]
  have hz : ∀ x : ℚ, 0 ≤ x → max 0 (0 - x) = 0 := by
    intro x hx
    rw [max_eq_left]
    linarith
  by_cases h0 : m.cost.getD 0 = 0 ∧ m.tokens = none
  · have heq : (accumulateCost m p s).1 = s := by
      unfold accumulateCost
      dsimp only
      rw [if_neg hrr, if_pos h0]
    have hi : optTokInput (some m) = 0 := by
      simp [optTokInput, prevTokensOf, h0.2, emptyTokens]
    have ho : optTokOutput (some m) = 0 := by
      simp [optTokOutput, prevTokensOf, h0.2, emptyTokens]
    have hre : optTokReasoning (some m) = 0 := by
      simp [optTokReasoning, prevTokensOf, h0.2, emptyTokens]
    have hcr : optCacheRead (some m) = 0 := by
      simp [optCacheRead, prevTokensOf, h0.2, emptyTokens]
    have hcw : optCacheWrite (some m) = 0 := by
      simp [optCacheWrite, prevTokensOf, h0.2, emptyTokens]
    rw [heq, hi, ho, hre, hcr, hcw, hz _ hi0, hz _ ho0, hz _ hre0, hz _ hcr0, hz _ hcw0]
    simp
  · cases htk : m.tokens with
    | none =>
      have htoks : (accumulateCost m p s).1.session_tokens = s.session_tokens := by
        unfold accumulateCost
        dsimp only
        rw [if_neg hrr, if_neg h0, htk]
        dsimp only
        split <;> rfl
      have hq : (accumulateCost m p s).1.sessionTokens m.sessionID =
          s.sessionTokens m.sessionID := by
        simp [SyncState.sessionTokens, htoks]
      have hi : optTokInput (some m) = 0 := by
        simp [optTokInput, prevTokensOf, htk, emptyTokens]
      have ho : optTokOutput (some m) = 0 := by
        simp [optTokOutput, prevTokensOf, htk, emptyTokens]
      have hre : optTokReasoning (some m) = 0 := by
        simp [optTokReasoning, prevTokensOf, htk, emptyTokens]
      have hcr : optCacheRead (some m) = 0 := by
        simp [optCacheRead, prevTokensOf, htk, emptyTokens]
      have hcw : optCacheWrite (some m) = 0 := by
        simp [optCacheWrite, prevTokensOf, htk, emptyTokens]
      rw [hq, hi, ho, hre, hcr, hcw, hz _ hi0, hz _ ho0, hz _ hre0, hz _ hcr0, hz _ hcw0]
      simp
    | some tk =>
      have hkey : (accumulateCost m p s).1.session_tokens =
          s.session_tokens.set m.sessionID
            { input := ((s.session_tokens.get m.sessionID).getD TokenSummary.zero).input +
                tokenDelta tk.input (prevTokensOf p).input
              output := ((s.session_tokens.get m.sessionID).getD TokenSummary.zero).output +
                tokenDelta tk.output (prevTokensOf p).output
              reasoning :=
                ((s.session_tokens.get m.sessionID).getD TokenSummary.zero).reasoning +
                  tokenDelta tk.reasoning (prevTokensOf p).reasoning
              cacheRead :=
                ((s.session_tokens.get m.sessionID).getD TokenSummary.zero).cacheRead +
                  tokenDelta (tk.cache.bind (fun c => c.read))
                    ((prevTokensOf p).cache.bind (fun c => c.read))
              cacheWrite :=
                ((s.session_tokens.get m.sessionID).getD TokenSummary.zero).cacheWrite +
                  tokenDelta (tk.cache.bind (fun c => c.write))
                    ((prevTokensOf p).cache.bind (fun c => c.write)) } := by
        unfold accumulateCost
        dsimp only
        rw [if_neg hrr, if_neg h0, htk]
        dsimp only
        split <;> rfl
      have hset : ∀ x : String,
          Rec.get (s.session_tokens.set m.sessionID
            (((accumulateCost m p s).1.session_tokens.get m.sessionID).getD
              TokenSummary.zero)) x = Rec.get (s.session_tokens.set m.sessionID
            (((accumulateCost m p s).1.session_tokens.get m.sessionID).getD
              TokenSummary.zero)) x := fun _ => rfl
      have hi : optTokInput (some m) = tk.input.getD 0 := by
        simp [optTokInput, prevTokensOf, htk, emptyTokens]
      have ho : optTokOutput (some m) = tk.output.getD 0 := by
        simp [optTokOutput, prevTokensOf, htk, emptyTokens]
      have hre : optTokReasoning (some m) = tk.reasoning.getD 0 := by
        simp [optTokReasoning, prevTokensOf, htk, emptyTokens]
      have hcr : optCacheRead (some m) = (tk.cache.bind (fun c => c.read)).getD 0 := by
        simp [optCacheRead, prevTokensOf, htk, emptyTokens]
      have hcw : optCacheWrite (some m) = (tk.cache.bind (fun c => c.write)).getD 0 := by
        simp [optCacheWrite, prevTokensOf, htk, emptyTokens]
      refine ⟨?_, ?_, ?_, ?_, ?_⟩ <;>
        simp [SyncState.sessionTokens, hkey, Rec.get_set, tokenDelta,
          optTokInput, optTokOutput, optTokReasoning, optCacheRead, optCacheWrite,
          prevTokensOf, htk, emptyTokens]

/-- C2: on every assistant-message upsert the session's running cost and each
of the five running token aggregates grow by exactly
max(0, newCumulativeValue - previousCumulativeValue), the previous values
being read from the message as stored before the upsert (zero when absent);
the stored cumulative values are assumed nonnegative, as cumulative costs
and token counts are. -/
theorem cost_accumulates_clamped_delta (st : SyncState) (m : Message)
    (hr : m.role = .assistant) (hp : prevNonneg (previousMessage st m)) :
    (processEvent st (.messageUpdated m)).1.sessionCost m.sessionID =
      st.sessionCost m.sessionID +
        max 0 (optCost (some m) - optCost (previousMessage st m)) ∧
    ((processEvent st (.messageUpdated m)).1.sessionTokens m.sessionID).input =
      (st.sessionTokens m.sessionID).input +
        max 0 (optTokInput (some m) - optTokInput (previousMessage st m)) ∧
    ((processEvent st (.messageUpdated m)).1.sessionTokens m.sessionID).output =
      (st.sessionTokens m.sessionID).output +
        max 0 (optTokOutput (some m) - optTokOutput (previousMessage st m)) ∧
    ((processEvent st (.messageUpdated m)).1.sessionTokens m.sessionID).reasoning =
      (st.sessionTokens m.sessionID).reasoning +
        max 0 (optTokReasoning (some m) - optTokReasoning (previousMessage st m)) ∧
    ((processEvent st (.messageUpdated m)).1.sessionTokens m.sessionID).cacheRead =
      (st.sessionTokens m.sessionID).cacheRead +
        max 0 (optCacheRead (some m) - optCacheRead (previousMessage st m)) ∧
    ((processEvent st (.messageUpdated m)).1.sessionTokens m.sessionID).cacheWrite =
      (st.sessionTokens m.sessionID).cacheWrite +
        max 0 (optCacheWrite (some m) - optCacheWrite (previousMessage st m)) := by
  have htoks := acc_session_tokens m (previousMessage st m)
    { st with
      message := st.message.set m.sessionID (evictOldest (upsertMessages st m) st.part).1
      part := (evictOldest (upsertMessages st m) st.part).2 } hr hp
  have hcost := acc_session_cost m (previousMessage st m)
    { st with
      message := st.message.set m.sessionID (evictOldest (upsertMessages st m) st.part).1
      part := (evictOldest (upsertMessages st m) st.part).2 } hr hp.1
  simp only [processEvent, upd_sessionCost_q, upd_sessionTokens_q]
  exact ⟨hcost, htoks.1, htoks.2.1, htoks.2.2.1, htoks.2.2.2.1, htoks.2.2.2.2⟩

/-- C2 witness: two consecutive upserts of message m1 with cumulative cost
0.10 then 0.25 — the second upsert adds max(0, 0.25 - 0.10) = 0.15 to the
running cost, moving it from 0.10 to 0.25. -/
theorem cost_accumulates_clamped_delta_witness :
    ((costMsg 0.25).role = Role.assistant ∧
      prevNonneg (previousMessage stCost (costMsg 0.25))) ∧
    ((processEvent stCost (.messageUpdated (costMsg 0.25))).1.sessionCost "session" =
        stCost.sessionCost "session" + max 0 ((0.25 : ℚ) - 0.10) ∧
      stCost.sessionCost "session" = 0.10 ∧
      max (0 : ℚ) ((0.25 : ℚ) - 0.10) = 0.15) :=
  ⟨⟨rfl, ⟨by norm_num [optCost, previousMessage, stCost, binarySearch, strLt,
        strLtChars, SyncState.init, Rec.get, costMsg],
      le_refl 0, le_refl 0, le_refl 0, le_refl 0, le_refl 0⟩⟩,
   (cost_accumulates_clamped_delta stCost (costMsg 0.25) rfl
      ⟨by norm_num [optCost, previousMessage, stCost, binarySearch, strLt,
          strLtChars, SyncState.init, Rec.get, costMsg],
        le_refl 0, le_refl 0, le_refl 0, le_refl 0, le_refl 0⟩).1,
   rfl, by norm_num⟩


/- accumulateCost never decreases the running cost aggregate, for any
session and without any assumption on the inputs. -/
theorem acc_cost_mono (m : Message) (p : Option Message) (s : SyncState) (x : String) :
    s.sessionCost x ≤ (accumulateCost m p s).1.sessionCost x := by
  have hcost : (accumulateCost m p s).1.session_cost = s.session_cost ∨
      (m.cost.getD 0 - (p.bind (fun q => q.cost)).getD 0 > 0 ∧
       (accumulateCost m p s).1.session_cost =
         s.session_cost.set m.sessionID
           ((s.session_cost.get m.sessionID).getD 0 +
             (m.cost.getD 0 - (p.bind (fun q => q.cost)).getD 0))) := by
    unfold accumulateCost
    dsimp only
    split
    · exact Or.inl rfl
    · split
      · exact Or.inl rfl
      · by_cases hd : m.cost.getD 0 - (p.bind (fun q => q.cost)).getD 0 > 0
        · refine Or.inr ⟨hd, ?_⟩
          rw [if_pos hd]
          split <;> rfl
        · refine Or.inl ?_
          rw [if_neg hd]
          split <;> rfl
  rcases hcost with h | ⟨hd, h⟩
  · simp [SyncState.sessionCost, h]
  · simp only [SyncState.sessionCost, h, Rec.get_set]
    by_cases hx : x = m.sessionID
    · simp only [hx, eq_self_iff_true, if_true, Option.getD_some]
      linarith
    · rw [if_neg hx]

/- accumulateCost never decreases any field of the running token aggregate,
for any session and without any assumption on the inputs. -/
theorem acc_tokens_mono (m : Message) (p : Option Message) (s : SyncState) (x : String) :
    TokenSummary.le (s.sessionTokens x) ((accumulateCost m p s).1.sessionTokens x) := by
  have hle : ∀ t : TokenSummary, TokenSummary.le t t := by
    intro t
    exact ⟨le_refl _, le_refl _, le_refl _, le_refl _, le_refl _⟩
  have htoks : (accumulateCost m p s).1.session_tokens = s.session_tokens ∨
      ∃ tk : TokensPayload,
        (accumulateCost m p s).1.session_tokens =
          s.session_tokens.set m.sessionID
            { input := ((s.session_tokens.get m.sessionID).getD TokenSummary.zero).input +
                tokenDelta tk.input (prevTokensOf p).input
              output := ((s.session_tokens.get m.sessionID).getD TokenSummary.zero).output +
                tokenDelta tk.output (prevTokensOf p).output
              reasoning :=
                ((s.session_tokens.get m.sessionID).getD TokenSummary.zero).reasoning +
                  tokenDelta tk.reasoning (prevTokensOf p).reasoning
              cacheRead :=
                ((s.session_tokens.get m.sessionID).getD TokenSummary.zero).cacheRead +
                  tokenDelta (tk.cache.bind (fun c => c.read))
                    ((prevTokensOf p).cache.bind (fun c => c.read))
              cacheWrite :=
                ((s.session_tokens.get m.sessionID).getD TokenSummary.zero).cacheWrite +
                  tokenDelta (tk.cache.bind (fun c => c.write))
                    ((prevTokensOf p).cache.bind (fun c => c.write)) } := by
    unfold accumulateCost
    dsimp only
    split
    · exact Or.inl rfl
    · split
      · exact Or.inl rfl
      · split
        · refine Or.inl ?_
          split <;> rfl
        · rename_i tk0 htk0
          exact Or.inr ⟨tk0, by split <;> rfl⟩
  have hmaxnn : ∀ a b : Option ℚ, 0 ≤ tokenDelta a b := by
    intro a b
    exact le_max_left 0 _
  rcases htoks with h | ⟨tk, h⟩
  · simp only [SyncState.sessionTokens, h]
    exact hle _
  · simp only [SyncState.sessionTokens, h, Rec.get_set]
    by_cases hx : x = m.sessionID
    · simp only [hx, eq_self_iff_true, if_true, Option.getD_some]
      refine ⟨?_, ?_, ?_, ?_, ?_⟩ <;>
        exact le_add_of_nonneg_right (hmaxnn _ _)
    · simp only [hx, if_neg hx]
      exact hle _

/-- C3 counterexample: a session with a running cost of 10 undergoes a
full-session sync whose fetched history is empty — the running cost drops to
0 while the session still exists, so the aggregate is not monotone across
the full set of store operations the claim quantifies over. -/
theorem aggregate_sync_regression_cex :
    (syncSession stRich "s" emptyFetch).1.sessionCost "s" < stRich.sessionCost "s" ∧
    getSession stRich "s" ≠ none ∧
    getSession (syncSession stRich "s" emptyFetch).1 "s" ≠ none := by
  have h1 : (syncSession stRich "s" emptyFetch).1.sessionCost "s" = 0 := rfl
  have h2 : stRich.sessionCost "s" = 10 := rfl
  refine ⟨?_, ?_, ?_⟩
  · rw [h1, h2]
    norm_num
  · intro h
    simp [getSession, stRich, SyncState.init, binarySearch, strLt, strLtChars] at h
  · intro h
    rw [show getSession (syncSession stRich "s" emptyFetch).1 "s" =
        some { id := "s", compacting := false } from rfl] at h
    cases h

/-- C3 amended: the running cost and token aggregates never decrease under
any remote-event application (for every session, whether or not it exists);
a full-session sync instead replaces the session's aggregates wholesale with
the totals of the fetched history, which need not dominate the previous
aggregate. -/
theorem aggregates_monotone_under_events :
    (∀ (st : SyncState) (e : Event) (sid : String),
      st.sessionCost sid ≤ (processEvent st e).1.sessionCost sid ∧
      TokenSummary.le (st.sessionTokens sid) ((processEvent st e).1.sessionTokens sid)) ∧
    (∀ (st : SyncState) (sid : String) (f : FetchedSession),
      sid ∉ st.fullSynced →
      (syncSession st sid f).1.sessionCost sid = (fetchedTotals f.messages).1 ∧
      (syncSession st sid f).1.sessionTokens sid = (fetchedTotals f.messages).2) := by
  constructor
  · intro st e sid
    have hle : ∀ t : TokenSummary, TokenSummary.le t t := by
      intro t
      exact ⟨le_refl _, le_refl _, le_refl _, le_refl _, le_refl _⟩
    have hrefl : ∀ s' : SyncState, s'.session_cost = st.session_cost →
        s'.session_tokens = st.session_tokens →
        st.sessionCost sid ≤ s'.sessionCost sid ∧
        TokenSummary.le (st.sessionTokens sid) (s'.sessionTokens sid) := by
      intro s' h1 h2
      constructor
      · simp [SyncState.sessionCost, h1]
      · simp only [SyncState.sessionTokens, h2]
        exact hle _
    cases e
    case messageUpdated info =>
      simp only [processEvent]
      constructor
      · rw [upd_sessionCost_q]
        exact acc_cost_mono info (previousMessage st info) _ sid
      · rw [upd_sessionTokens_q]
        exact acc_tokens_mono info (previousMessage st info) _ sid
    case sessionCreated info =>
      simp only [processEvent]
      exact hrefl _ (by rw [upd_session_cost]) (by rw [upd_session_tokens])
    case sessionUpdated info =>
      simp only [processEvent]
      exact hrefl _ (by rw [upd_session_cost]) (by rw [upd_session_tokens])
    case sessionStatusEvt a b =>
      simp only [processEvent]
      exact hrefl _ (by rw [upd_session_cost]) (by rw [upd_session_tokens])
    case messageRemoved a b =>
      simp only [processEvent]
      rcases hm : Rec.get st.message a with _ | msgs
      · simp only [hm]
        exact hrefl _ rfl rfl
      · simp only [hm]
        refine hrefl _ ?_ ?_
        · rw [upd_session_cost]
          split <;> rfl
        · rw [upd_session_tokens]
          split <;> rfl
    all_goals
      simp only [processEvent]
    all_goals
      try exact hrefl _ rfl rfl
    all_goals
      refine hrefl _ ?_ ?_ <;> (repeat' split) <;> rfl
  · intro st sid f hns
    have hnotin : ¬ sid ∈ st.fullSynced := hns
    constructor
    · simp only [syncSession, if_neg hnotin, upd_sessionCost_q]
      simp [SyncState.sessionCost, Rec.get_set]
    · simp only [syncSession, if_neg hnotin, upd_sessionTokens_q]
      simp [SyncState.sessionTokens, Rec.get_set]

/-- C3 witness for the amended theorem: syncing the unsynced session of the
counterexample state replaces its cost aggregate with the empty history's
total 0. -/
theorem aggregates_monotone_under_events_witness :
    ("s" ∉ stRich.fullSynced) ∧
    (syncSession stRich "s" emptyFetch).1.sessionCost "s" =
      (fetchedTotals emptyFetch.messages).1 :=
  ⟨by decide,
   (aggregates_monotone_under_events.2 stRich "s" emptyFetch (by decide)).1⟩


/- A successful search lands on a valid index. -/
theorem binarySearch_found_lt {α : Type} (l : List α) (key : String) (f : α → String)
    (h : (binarySearch l key f).found = true) :
    (binarySearch l key f).index < l.length := by
  induction l with
  | nil => simp [binarySearch] at h
  | cons a rest ih =>
    by_cases h1 : strLt (f a) key = true
    · unfold binarySearch at h ⊢
      rw [if_pos h1] at h ⊢
      dsimp only at h ⊢
      have := ih h
      simp only [List.length_cons]
      omega
    · unfold binarySearch at h ⊢
      rw [if_neg h1] at h ⊢
      by_cases h2 : f a = key
      · rw [if_pos h2]
        simp
      · rw [if_neg h2] at h
        simp at h

/- Neither the aggregate update nor the derived-status update ever emits the
assistantMessageComplete notification. -/
theorem acc_events_nocomplete (m : Message) (p : Option Message) (s : SyncState) :
    (accumulateCost m p s).2.any isCompleteEvt = false := by
  unfold accumulateCost
  dsimp only
  split
  · rfl
  · split
    · rfl
    · simp [isCompleteEvt]

theorem upd_events_nocomplete (sid : String) (s : SyncState) :
    (updateDerivedStatus sid s).2.any isCompleteEvt = false := by
  unfold updateDerivedStatus
  dsimp only
  split
  · rfl
  · simp [isCompleteEvt]

/- The completion notification of a message upsert is emitted exactly on an
unset-to-set completion transition. -/
theorem emitAM_any (c : Message) (p : Option Message) (s' : SyncState) :
    (emitAssistantMessage c p s').any isCompleteEvt =
      (decide (c.role = .assistant) && c.completed.isSome &&
        !(match p with
          | some q => decide (q.role = .assistant) && q.completed.isSome
          | none => false)) := by
  unfold emitAssistantMessage
  by_cases hr : c.role = .assistant
  · rw [if_neg (by simp [hr])]
    dsimp only
    by_cases hcw : (c.completed.isSome &&
        !(match p with
          | some q => decide (q.role = .assistant) && q.completed.isSome
          | none => false)) = true
    · rw [if_pos hcw]
      simp only [List.any_cons, List.any_nil, isCompleteEvt]
      simp [hr, Bool.and_assoc, hcw]
    · rw [if_neg hcw]
      simp only [List.any_cons, List.any_nil, isCompleteEvt]
      simp only [Bool.not_eq_true] at hcw
      simp [hr, Bool.and_assoc, hcw]
  · rw [if_pos (by simp [hr])]
    simp [hr]

/- The completion notification of a part event is emitted exactly when the
owning assistant message is currently complete. -/
theorem emitFP_any (s' : SyncState) (sid : String) (mid : String) :
    (emitAssistantMessageFromPart s' sid mid).any isCompleteEvt =
      msgCompleteNow s' sid mid := by
  unfold emitAssistantMessageFromPart msgCompleteNow
  cases hgm : getMessage s' sid mid with
  | none => simp
  | some mm =>
    by_cases hr : mm.role = .assistant
    · by_cases hc : mm.completed.isSome = true
      · simp [hr, hc, isCompleteEvt]
      · simp only [Bool.not_eq_true] at hc
        simp [hr, hc, isCompleteEvt]
    · simp [hr, isCompleteEvt]

/-- C5 counterexample: with a completed assistant message already stored, a
subsequent part-upsert event re-emits the assistantMessageComplete
notification although the message's completion timestamp was already set
before the event and the message table is untouched — so the notification is
not emitted only at unset-to-set transitions. -/
theorem completion_reemitted_on_part_event_cex :
    (processEvent stCompleted (.partUpdated pText)).2.any isCompleteEvt = true ∧
    (getMessage stCompleted "s" "m").map (fun mm => mm.completed.isSome) = some true ∧
    (processEvent stCompleted (.partUpdated pText)).1.message = stCompleted.message :=
  ⟨rfl, rfl, rfl⟩

/-- C5 amended: the store emits assistantMessageComplete exactly as follows —
a message upsert emits it iff the upserted message is an assistant message
whose completion timestamp is set while the previously stored message was
not a completed assistant message (the unset-to-set transition); a part
upsert, part delta (on a found part) or part removal (with a present part
list) re-emits it whenever the owning stored message is an assistant message
whose completion timestamp is currently set; no other event emits it. -/
theorem completion_emission_characterized (st : SyncState) (e : Event) :
    (processEvent st e).2.any isCompleteEvt = completeEmissionExpected st e := by
  cases e
  case messageUpdated info =>
    simp only [processEvent, List.any_append, emitAM_any, acc_events_nocomplete,
      upd_events_nocomplete, completeEmissionExpected, Bool.or_false]
  case partUpdated part =>
    simp only [processEvent, emitFP_any, completeEmissionExpected]
    rfl
  case partDelta sid mid pid field delta =>
    simp only [processEvent, completeEmissionExpected]
    rcases hp : Rec.get st.part mid with _ | parts
    · simp
    · simp only []
      by_cases hf : (binarySearch parts pid (fun p => p.id)).found = true
      · rw [if_pos hf]
        have hlt := binarySearch_found_lt parts pid (fun p => p.id) hf
        rcases hge : parts[(binarySearch parts pid (fun p => p.id)).index]? with _ | part
        · rw [List.getElem?_eq_none_iff] at hge
          omega
        · simp only [emitFP_any, hf, Bool.true_and]
          rfl
      · simp only [Bool.not_eq_true] at hf
        rw [if_neg (by simp [hf])]
        simp [hf]
  case partRemoved sid mid pid =>
    simp only [processEvent, completeEmissionExpected]
    rcases hp : Rec.get st.part mid with _ | parts
    · simp
    · simp only [emitFP_any, Option.isSome_some, Bool.true_and]
      rfl
  case serverInstanceDisposed => simp [processEvent, completeEmissionExpected, isCompleteEvt]
  case permissionReplied a b =>
    simp only [processEvent, completeEmissionExpected]
    rcases hp : Rec.get st.permission a with _ | reqs
    · simp only [hp]
      rfl
    · simp only [hp]
      split <;> rfl
  case permissionAsked req =>
    simp only [processEvent, completeEmissionExpected]
    rcases hp : Rec.get st.permission req.sessionID with _ | reqs <;>
      simp [isCompleteEvt]
  case questionReplied a b =>
    simp only [processEvent, completeEmissionExpected]
    rcases hp : Rec.get st.question a with _ | reqs
    · simp only [hp]
      rfl
    · simp only [hp]
      split <;> rfl
  case questionRejected a b =>
    simp only [processEvent, completeEmissionExpected]
    rcases hp : Rec.get st.question a with _ | reqs
    · simp only [hp]
      rfl
    · simp only [hp]
      split <;> rfl
  case questionAsked req =>
    simp only [processEvent, completeEmissionExpected]
    rcases hp : Rec.get st.question req.sessionID with _ | reqs <;>
      simp [isCompleteEvt]
  case todoUpdated a todos => simp [processEvent, completeEmissionExpected, isCompleteEvt]
  case sessionDiff a diff => simp [processEvent, completeEmissionExpected]
  case sessionCreated info =>
    simp [processEvent, completeEmissionExpected, upd_events_nocomplete]
  case sessionUpdated info =>
    simp [processEvent, completeEmissionExpected, upd_events_nocomplete]
  case sessionDeleted info => simp [processEvent, completeEmissionExpected]
  case sessionStatusEvt a b =>
    simp [processEvent, completeEmissionExpected, upd_events_nocomplete]
  case messageRemoved a b =>
    simp only [processEvent, completeEmissionExpected]
    rcases hp : Rec.get st.message a with _ | msgs
    · rfl
    · simp [upd_events_nocomplete]
  case lspUpdated => rfl
  case vcsBranchUpdated branch =>
    simp only [processEvent, completeEmissionExpected]
    split <;> rfl
  case tuiToastShow a b c => simp [processEvent, completeEmissionExpected, isCompleteEvt]
  case sessionErrorEvt a b =>
    simp only [processEvent, completeEmissionExpected]
    rcases a with _ | sid
    · rfl
    · dsimp only
      split
      · rfl
      · simp [isCompleteEvt]
  case unhandled => rfl


/-- C1: with two registered consumers A and B and the session claimed for B,
a prompt sent by A through the router's origin-tracking call queues A as the
pending origin, and the resulting inbound-message notification for that
session is delivered to B exactly once (the action list of the handler is
the single inbound-message call to B), tagged with origin A (A's id and
channel); since the only delivery targets B and A is a different consumer, A
never receives it, and the queued origin is consumed. -/
theorem inbound_message_routed_with_origin (A : Adapter) (B : Adapter)
    (sid : String) (text : String) (tmo : ℚ) (store : SyncState) (msg : Message)
    (hAB : A.id ≠ B.id) (hA : A.id ≠ "") (hB : B.hasOnInboundMessage = true)
    (_hnotif : userMessageNotification msg = some (sid, msg)) :
    ∃ r1 r2 : RouterState,
      setSessionAdapter (RouterState.mk (mkAdapters [A, B]) [] none [] tmo) sid B.id =
        .ok r1 ∧
      promptWithOrigin r1 sid text A.id = .ok (r2, [.promptCall sid text]) ∧
      (handleUserMessage r2 store sid msg).2 =
        [.inboundMessage B.id sid (resolveUserMessageText store msg)
          { adapterId := A.id, channel := A.channel }] ∧
      Rec.get (handleUserMessage r2 store sid msg).1.pendingPromptOrigins sid = none := by
  have hBA : ¬ B.id = A.id := fun h => hAB h.symm
  have hadB : Rec.get (mkAdapters [A, B]) B.id = some B := by
    simp [mkAdapters, Rec.set, Rec.get_cons, hAB, hBA]
  have hadA : Rec.get (mkAdapters [A, B]) A.id = some A := by
    simp [mkAdapters, Rec.set, Rec.get_cons, hAB]
  refine ⟨RouterState.mk (mkAdapters [A, B]) (Rec.set [] sid B.id) none [] tmo,
    RouterState.mk (mkAdapters [A, B]) (Rec.set [] sid B.id) none
      (Rec.set [] sid [A.id]) tmo, ?_, ?_, ?_, ?_⟩
  · simp [setSessionAdapter, hadB]
  · simp [promptWithOrigin, hadA, queuePromptOrigin, Rec.get_nil]
  · have hdA : (decide (A.id ≠ "") : Bool) = true := by simp [hA]
    have hgad : getAdapter
        (RouterState.mk (mkAdapters [A, B]) (Rec.set [] sid B.id) none
          (Rec.set [] sid [A.id]) tmo) sid = some B := by
      simp [getAdapter, Rec.get_set, Option.orElse, hadB]
    simp only [handleUserMessage, hgad, hB, Bool.not_true, Bool.false_eq_true,
      if_false, shiftPromptOrigin, Rec.get_set, if_pos rfl]
    simp [resolveOrigin, hadA, hA, hAB, Option.getD_some]
  · have hgad : getAdapter
        (RouterState.mk (mkAdapters [A, B]) (Rec.set [] sid B.id) none
          (Rec.set [] sid [A.id]) tmo) sid = some B := by
      simp [getAdapter, Rec.get_set, Option.orElse, hadB]
    simp only [handleUserMessage, hgad, hB, Bool.not_true, Bool.false_eq_true,
      if_false, shiftPromptOrigin, Rec.get_set, if_pos rfl]
    simp [resolveOrigin, hadA, hA, hAB, Rec.get_erase]

/-- C1 witness: the scenario run with the concrete consumers A and B, an
empty store and a user-authored message. -/
theorem inbound_message_routed_with_origin_witness :
    (adapterA.id ≠ adapterB.id ∧ adapterA.id ≠ "" ∧
      adapterB.hasOnInboundMessage = true ∧
      userMessageNotification userMsg = some ("s", userMsg)) ∧
    (∃ r1 r2 : RouterState,
      setSessionAdapter
          (RouterState.mk (mkAdapters [adapterA, adapterB]) [] none [] 300000) "s"
          adapterB.id = .ok r1 ∧
      promptWithOrigin r1 "s" "hello" adapterA.id = .ok (r2, [.promptCall "s" "hello"]) ∧
      (handleUserMessage r2 SyncState.init "s" userMsg).2 =
        [.inboundMessage adapterB.id "s"
          (resolveUserMessageText SyncState.init userMsg)
          { adapterId := adapterA.id, channel := adapterA.channel }] ∧
      Rec.get (handleUserMessage r2 SyncState.init "s" userMsg).1.pendingPromptOrigins
        "s" = none) :=
  ⟨⟨by decide, by decide, rfl, rfl⟩,
   inbound_message_routed_with_origin adapterA adapterB "s" "hello" 300000
     SyncState.init userMsg (by decide) (by decide) rfl rfl⟩

end Relay
